import Mathlib

/-!
Shallow embedding of the hc1-sig-archive meeting bot core: the meeting
session manager (src/bot/src/bot/meeting-manager.ts, re-exported through
src/bot/src/bot/index.ts), the minutes generator
(src/bot/src/bot/minutes-generator.ts) and the storage providers' path
generation (src/bot/src/storage).  JavaScript `Map`s are modelled as
association lists with in-place update semantics, `Set`s as
insertion-ordered duplicate-free lists, `Date`s as milliseconds since the
Unix epoch (`Nat`), and Deno KV as two association lists (session history
keyed by session id, active index keyed by room id).
-/

namespace HC1

/-- JavaScript `Map.get`: the entry with the given key, if any. -/
def alGet (k : String) : List (String × α) → Option α
  | [] => none
  | (k', v) :: rest => if k' = k then some v else alGet k rest

/-- JavaScript `Map.set`: update an existing entry in place (keeping its
position in iteration order) or append a new entry at the end. -/
def alSet (k : String) (v : α) : List (String × α) → List (String × α)
  | [] => [(k, v)]
  | (k', v') :: rest => if k' = k then (k, v) :: rest else (k', v') :: alSet k v rest

/-- JavaScript `Map.delete`: remove the entry with the given key. -/
def alDelete (k : String) (l : List (String × α)) : List (String × α) :=
  l.filter (fun p => p.1 ≠ k)

/-- The keys of an association list, in iteration order. -/
def alKeys (l : List (String × α)) : List String :=
  l.map Prod.fst

/-- Well-formedness of a JavaScript `Map` model: keys are pairwise distinct. -/
def alWF (l : List (String × α)) : Prop :=
  (alKeys l).Nodup

theorem alGet_alSet_self (k : String) (v : α) (l : List (String × α)) :
    alGet k (alSet k v l) = some v := by
  induction l with
  | nil => simp [alGet, alSet]
  | cons p rest ih =>
    obtain ⟨pk, pv⟩ := p
    by_cases h : pk = k
    · simp [alGet, alSet, h]
    · simpa [alGet, alSet, h] using ih

theorem alGet_alSet_ne (k k' : String) (v : α) (l : List (String × α)) (h : k ≠ k') :
    alGet k' (alSet k v l) = alGet k' l := by
  induction l with
  | nil => simp [alGet, alSet, h]
  | cons p rest ih =>
    obtain ⟨pk, pv⟩ := p
    by_cases hp : pk = k
    · simp [alGet, alSet, hp, h, Ne.symm h]
    · by_cases hp' : pk = k'
      · simp [alGet, alSet, hp, hp', Ne.symm h]
      · simpa [alGet, alSet, hp, hp'] using ih

theorem alKeys_alSet_of_mem (k : String) (v : α) (l : List (String × α))
    (h : k ∈ alKeys l) : alKeys (alSet k v l) = alKeys l := by
  induction l with
  | nil => simp [alKeys] at h
  | cons p rest ih =>
    obtain ⟨pk, pv⟩ := p
    by_cases hp : pk = k
    · subst hp
      simp [alKeys, alSet]
    · have hk : k ∈ alKeys rest := by
        rcases (by simpa [alKeys] using h : k = pk ∨ k ∈ alKeys rest) with h1 | h1
        · exact absurd h1.symm hp
        · exact h1
      simp only [alKeys, alSet, if_neg hp, List.map_cons]
      rw [show List.map Prod.fst (alSet k v rest) = alKeys (alSet k v rest) from rfl, ih hk]
      rfl

theorem alKeys_alSet_of_not_mem (k : String) (v : α) (l : List (String × α))
    (h : k ∉ alKeys l) : alKeys (alSet k v l) = alKeys l ++ [k] := by
  induction l with
  | nil => simp [alKeys, alSet]
  | cons p rest ih =>
    obtain ⟨pk, pv⟩ := p
    have hpk : ¬pk = k := by
      intro hc
      exact h (by simp [alKeys, hc])
    have hrest : k ∉ alKeys rest := by
      intro hc
      exact h (by simp [alKeys]; right; simpa [alKeys] using hc)
    simp only [alKeys, alSet, if_neg hpk, List.map_cons]
    rw [show List.map Prod.fst (alSet k v rest) = alKeys (alSet k v rest) from rfl, ih hrest]
    rfl

theorem alWF_alSet (k : String) (v : α) (l : List (String × α)) (h : alWF l) :
    alWF (alSet k v l) := by
  by_cases hk : k ∈ alKeys l
  · rw [alWF, alKeys_alSet_of_mem k v l hk]
    exact h
  · rw [alWF, alKeys_alSet_of_not_mem k v l hk]
    have hd : (alKeys l).Disjoint [k] := by
      intro a ha hb
      rw [List.mem_singleton] at hb
      exact hk (hb ▸ ha)
    exact List.Nodup.append h (List.nodup_singleton k) hd

theorem alWF_alDelete (k : String) (l : List (String × α)) (h : alWF l) :
    alWF (alDelete k l) := by
  have hsub : List.Sublist (alKeys (alDelete k l)) (alKeys l) :=
    List.Sublist.map Prod.fst (List.filter_sublist l)
  exact List.Nodup.sublist hsub h

theorem alGet_alDelete_self (k : String) (l : List (String × α)) :
    alGet k (alDelete k l) = none := by
  induction l with
  | nil => simp [alGet, alDelete]
  | cons p rest ih =>
    obtain ⟨pk, pv⟩ := p
    by_cases hp : pk = k
    · simpa [alDelete, List.filter_cons, hp] using ih
    · simpa [alDelete, List.filter_cons, hp, alGet] using ih

/-- Under distinct keys, the entries matching a key (refined by any further
test) number at most one. -/
theorem length_filter_key_le_one (l : List (String × α)) (h : alWF l)
    (room : String) (f : String × α → Bool) :
    (l.filter (fun p => decide (p.1 = room) && f p)).length ≤ 1 := by
  induction l with
  | nil => simp
  | cons p rest ih =>
    obtain ⟨pk, pv⟩ := p
    simp only [alWF, alKeys, List.map_cons, List.nodup_cons] at h
    by_cases hp : pk = room
    · subst hp
      have hnone : rest.filter (fun q => decide (q.1 = pk) && f q) = [] := by
        apply List.filter_eq_nil_iff.mpr
        intro q hq
        have hq1 : ¬q.1 = pk := by
          intro hcontra
          exact h.1 (hcontra ▸ List.mem_map_of_mem Prod.fst hq)
        simp [hq1]
      by_cases hf : f (pk, pv) <;> simp [List.filter_cons, hf, hnone]
    · simp only [List.filter_cons]
      have : (decide (pk = room) && f (pk, pv)) = false := by simp [hp]
      simp only [this]
      simpa using ih h.2

/-- JavaScript `Set.add`: append the element if it is not already present. -/
def setAdd (s : List String) (x : String) : List String :=
  if x ∈ s then s else s ++ [x]

/-- JavaScript `new Set(array)`: insert the elements in order, keeping the
first occurrence of each. -/
def setFromList (l : List String) : List String :=
  l.foldl setAdd []

theorem setAdd_nodup (s : List String) (x : String) (h : s.Nodup) :
    (setAdd s x).Nodup := by
  unfold setAdd
  split
  · exact h
  · next hx => simpa using List.Nodup.append h (by simp) (by simpa using hx)

theorem setFromList_eq_self_aux :
    ∀ (l acc : List String), l.Nodup → (∀ x ∈ l, x ∉ acc) →
      l.foldl setAdd acc = acc ++ l := by
  intro l
  induction l with
  | nil => intro acc _ _; simp
  | cons x xs ih =>
    intro acc hnd hdisj
    have hx : x ∉ acc := hdisj x (by simp)
    have hstep : setAdd acc x = acc ++ [x] := by simp [setAdd, hx]
    have hdisj' : ∀ y ∈ xs, y ∉ acc ++ [x] := by
      intro y hy
      simp only [List.mem_append, List.mem_singleton]
      rintro (hc | hc)
      · exact hdisj y (by simp [hy]) hc
      · exact (List.nodup_cons.mp hnd).1 (hc ▸ hy)
    rw [List.foldl_cons, hstep, ih (acc ++ [x]) (List.Nodup.of_cons hnd) hdisj']
    simp

/-- Serializing a duplicate-free list through `new Set(array)` gives it back. -/
theorem setFromList_eq_self (l : List String) (h : l.Nodup) : setFromList l = l := by
  simpa using setFromList_eq_self_aux l [] h (by simp)

/-! ## Data model (src/bot/src/types/index.ts)

`Date` values are milliseconds since the Unix epoch.  `messageType` is an
`Option String` because `captureMessageEdit` copies the event's `msgtype`
without validation, so an absent `msgtype` can be stored; the TypeScript
`as` cast performs no runtime check.  The optional `isEdited` flag is a
`Bool` (an absent flag and `false` behave identically everywhere). -/

structure CapturedMessage where
  timestamp : Nat
  senderId : String
  senderDisplayName : String
  content : String
  messageType : Option String
  eventId : String
  isEdited : Bool
  originalEventId : Option String
deriving DecidableEq, Repr

/-- In-memory session.  `participants` models the JavaScript `Set` as an
insertion-ordered duplicate-free list; `topic` is the field assigned by
`setMeetingTopic`. -/
structure MeetingSession where
  id : String
  roomId : String
  roomName : String
  chairUserId : String
  chairDisplayName : String
  startTime : Nat
  endTime : Option Nat
  messages : List CapturedMessage
  participants : List String
  topic : Option String
deriving DecidableEq, Repr

/-- The record written to Deno KV by `persistSession`: the session with the
participant `Set` flattened to an array (`Array.from`). -/
structure SessionData where
  id : String
  roomId : String
  roomName : String
  chairUserId : String
  chairDisplayName : String
  startTime : Nat
  endTime : Option Nat
  messages : List CapturedMessage
  participants : List String
  topic : Option String
deriving DecidableEq, Repr

structure MessageContent where
  msgtype : Option String
  body : String
deriving DecidableEq, Repr

structure MatrixEvent where
  event_id : String
  sender : String
  origin_server_ts : Nat
  content : MessageContent
deriving DecidableEq, Repr

/-! ## Dates

The generator formats times through `Date.prototype.toISOString`, which is
UTC; the storage providers use the local-time accessors (`getFullYear`,
`getMonth`, ...), modelled here for a process running with a UTC clock.
`civilFromDays` is the standard days-to-civil-date conversion. -/

def civilFromDays (z : Nat) : Nat × Nat × Nat :=
  let z' := z + 719468
  let era := z' / 146097
  let doe := z' % 146097
  let yoe := (doe - doe / 1460 + doe / 36524 - doe / 146096) / 365
  let y := yoe + era * 400
  let doy := doe - (365 * yoe + yoe / 4 - yoe / 100)
  let mp := (5 * doy + 2) / 153
  let d := doy - (153 * mp + 2) / 5 + 1
  let m := if mp < 10 then mp + 3 else mp - 9
  (if m ≤ 2 then y + 1 else y, m, d)

def dateYear (ms : Nat) : Nat := (civilFromDays (ms / 86400000)).1

def dateMonth (ms : Nat) : Nat := (civilFromDays (ms / 86400000)).2.1

def dateDay (ms : Nat) : Nat := (civilFromDays (ms / 86400000)).2.2

def dateHour (ms : Nat) : Nat := ms / 3600000 % 24

def dateMinute (ms : Nat) : Nat := ms / 60000 % 60

def dateSecond (ms : Nat) : Nat := ms / 1000 % 60

/-- `String(n).padStart(2, "0")`. -/
def pad2N (n : Nat) : String :=
  if n < 10 then "0" ++ Nat.repr n else Nat.repr n

/-- Four-digit year field of `toISOString` (years 1000..9999 print as-is). -/
def pad4N (n : Nat) : String :=
  if n < 10 then "000" ++ Nat.repr n
  else if n < 100 then "00" ++ Nat.repr n
  else if n < 1000 then "0" ++ Nat.repr n
  else Nat.repr n

def pad3N (n : Nat) : String :=
  if n < 10 then "00" ++ Nat.repr n
  else if n < 100 then "0" ++ Nat.repr n
  else Nat.repr n

/-- `toISOString().split("T")[0]`: the `YYYY-MM-DD` date part. -/
def isoDateString (ms : Nat) : String :=
  pad4N (dateYear ms) ++ "-" ++ pad2N (dateMonth ms) ++ "-" ++ pad2N (dateDay ms)

/-- MinutesGenerator.formatTimeWithSeconds:
`toISOString().split("T")[1].substring(0, 8)`, i.e. `HH:MM:SS` in UTC. -/
def formatTimeWithSeconds (ms : Nat) : String :=
  pad2N (dateHour ms) ++ ":" ++ pad2N (dateMinute ms) ++ ":" ++ pad2N (dateSecond ms)

/-- `Date.prototype.toISOString`. -/
def isoString (ms : Nat) : String :=
  isoDateString ms ++ "T" ++ formatTimeWithSeconds ms ++ "." ++ pad3N (ms % 1000) ++ "Z"

/-! ## Slugs -/

/-- The character class `[a-z0-9]`. -/
def isLowerAlnum (c : Char) : Bool :=
  (decide (97 ≤ c.toNat) && decide (c.toNat ≤ 122)) ||
    (decide (48 ≤ c.toNat) && decide (c.toNat ≤ 57))

/-- The regex class `\s`, restricted to its ASCII members. -/
def isJsSpace (c : Char) : Bool :=
  c == ' ' || c == '\t' || c == '\n' || c == '\r' ||
    c == Char.ofNat 11 || c == Char.ofNat 12

/-- `str.replace(/X+/g, r)` for a character class `X`: each maximal run of
characters matching `p` becomes the single character `r`.  The `Bool`
argument tracks whether the previous character was inside a run. -/
def collapseRunsAux (p : Char → Bool) (r : Char) : Bool → List Char → List Char
  | _, [] => []
  | inRun, c :: rest =>
    if p c then
      if inRun then collapseRunsAux p r true rest
      else r :: collapseRunsAux p r true rest
    else c :: collapseRunsAux p r false rest

/-- MinutesGenerator.slugify: lowercase, collapse each `[^a-z0-9]+` run to
one hyphen, strip leading and trailing hyphen runs. -/
def slugify (text : String) : String :=
  let cs := text.data.map Char.toLower
  let cs := collapseRunsAux (fun c => !isLowerAlnum c) '-' false cs
  let cs := cs.dropWhile (fun c => c == '-')
  let cs := (cs.reverse.dropWhile (fun c => c == '-')).reverse
  String.mk cs

/-- GitHubStorageProvider.sanitizeChannelName (the local provider has the
identical private copy): lowercase, delete `[^a-z0-9\s-]`, collapse `\s+`
runs to one hyphen, collapse `-+` runs, then `replace(/^-|-$/g, "")`, which
strips at most one leading and one trailing hyphen. -/
def sanitizeChannelName (roomName : String) : String :=
  let cs := roomName.data.map Char.toLower
  let cs := cs.filter (fun c => isLowerAlnum c || isJsSpace c || c == '-')
  let cs := collapseRunsAux isJsSpace '-' false cs
  let cs := collapseRunsAux (fun c => c == '-') '-' false cs
  let cs := match cs with
    | c :: rest => if c == '-' then rest else c :: rest
    | [] => []
  let cs := match cs.reverse with
    | c :: rest => if c == '-' then rest.reverse else (c :: rest).reverse
    | [] => []
  String.mk cs

/-! ## MinutesGenerator (src/bot/src/bot/minutes-generator.ts) -/

structure MinutesGeneratorOptions where
  includeSystemMessages : Bool
  timeZone : String
deriving DecidableEq, Repr

/-- The `MinutesGenerator` constructor: `??`-defaulting of the options. -/
def mkMinutesGeneratorOptions (includeSystemMessages : Option Bool)
    (timeZone : Option String) : MinutesGeneratorOptions :=
  { includeSystemMessages := includeSystemMessages.getD true
    timeZone := timeZone.getD "UTC" }

structure ParticipantStat where
  userId : String
  displayName : String
  messageCount : Nat
deriving DecidableEq, Repr

structure MinutesMetadata where
  title : String
  room : String
  chair : String
  chairId : String
  startTime : String
  endTime : String
  duration : String
  participants : List String
  participantStats : List ParticipantStat
  roomId : String
  published : String
deriving DecidableEq, Repr

structure GeneratedMinutes where
  content : String
  filename : String
  metadata : MinutesMetadata
deriving DecidableEq, Repr

/-- One step of the stable insertion modelling
`messages.sort((a, b) => a.timestamp.getTime() - b.timestamp.getTime())`
(JavaScript `Array.prototype.sort` is stable): the inserted message goes in
front of the first element it is not strictly later than. -/
def insertByTs (m : CapturedMessage) : List CapturedMessage → List CapturedMessage
  | [] => [m]
  | x :: xs => if m.timestamp ≤ x.timestamp then m :: x :: xs else x :: insertByTs m xs

def sortByTs (l : List CapturedMessage) : List CapturedMessage :=
  l.foldr insertByTs []

/-- The `Map` key of MinutesGenerator.filterDuplicateEdits:
`` `${message.senderId}-${message.timestamp.getTime()}` ``. -/
def dedupKey (m : CapturedMessage) : String :=
  m.senderId ++ "-" ++ Nat.repr m.timestamp

/-- One loop iteration of filterDuplicateEdits: keep the first message per
key, but let any edited message overwrite the stored one. -/
def fdeStep (acc : List (String × CapturedMessage)) (m : CapturedMessage) :
    List (String × CapturedMessage) :=
  match alGet (dedupKey m) acc with
  | none => alSet (dedupKey m) m acc
  | some _ => if m.isEdited then alSet (dedupKey m) m acc else acc

/-- MinutesGenerator.filterDuplicateEdits: group by `(senderId, timestamp)`
in a `Map` and return `Array.from(map.values())` (insertion order). -/
def filterDuplicateEdits (messages : List CapturedMessage) : List CapturedMessage :=
  (messages.foldl fdeStep []).map Prod.snd

/-- MinutesGenerator.formatMessage. -/
def formatMessage (m : CapturedMessage) : String :=
  let content :=
    match m.messageType with
    | some "m.emote" => "*" ++ m.senderDisplayName ++ " " ++ m.content ++ "*"
    | some "m.notice" =>
      if m.senderId = "system" then "*" ++ m.content ++ "*"
      else "**" ++ m.content ++ "**"
    | _ => m.content
  if m.isEdited then content ++ " (edited)" else content

/-- One line of the transcript loop in generateMinutesContent. -/
def renderLine (m : CapturedMessage) : String :=
  let timestamp := formatTimeWithSeconds m.timestamp
  let formatted := formatMessage m
  if m.messageType = some "m.emote" then timestamp ++ " " ++ formatted
  else timestamp ++ " <" ++ m.senderDisplayName ++ "> " ++ formatted

/-- The lines accumulated by the loop of generateMinutesContent: system
entries are skipped only when `includeSystemMessages` is off. -/
def minutesLines (opts : MinutesGeneratorOptions) (s : MeetingSession) : List String :=
  (((filterDuplicateEdits (sortByTs s.messages)).filter
    (fun m => opts.includeSystemMessages || !(m.senderId == "system"))).map renderLine)

/-- MinutesGenerator.generateMinutesContent. -/
def generateMinutesContent (opts : MinutesGeneratorOptions) (s : MeetingSession) : String :=
  if s.messages.length = 0 then "No messages were captured during this meeting."
  else String.intercalate "\n" (minutesLines opts s)

/-- One loop iteration of calculateParticipantStats: bump the sender's
count and remember the most recent display name; system entries excluded. -/
def statStep (acc : List (String × (String × Nat))) (m : CapturedMessage) :
    List (String × (String × Nat)) :=
  if m.senderId = "system" then acc
  else
    let prev := match alGet m.senderId acc with
      | some pr => pr.2
      | none => 0
    alSet m.senderId (m.senderDisplayName, prev + 1) acc

/-- Stable insertion modelling `.sort((a, b) => b.messageCount - a.messageCount)`. -/
def insertStatDesc (x : ParticipantStat) : List ParticipantStat → List ParticipantStat
  | [] => [x]
  | y :: ys => if y.messageCount ≤ x.messageCount then x :: y :: ys else y :: insertStatDesc x ys

def sortStatsDesc (l : List ParticipantStat) : List ParticipantStat :=
  l.foldr insertStatDesc []

/-- MinutesGenerator.calculateParticipantStats. -/
def calculateParticipantStats (s : MeetingSession) : List ParticipantStat :=
  let sorted := sortByTs s.messages
  let filtered := filterDuplicateEdits sorted
  let counts := filtered.foldl statStep []
  sortStatsDesc (counts.map (fun e => ⟨e.1, e.2.1, e.2.2⟩))

/-- Shared duration pretty-printer (manager and generator carry identical
copies).  The subtraction is on a session whose end is not before its
start. -/
def calculateDuration (startMs endMs : Nat) : String :=
  let durationMs := endMs - startMs
  let hours := durationMs / 3600000
  let minutes := durationMs % 3600000 / 60000
  if hours > 0 then
    Nat.repr hours ++ " hour" ++ (if hours ≠ 1 then "s" else "") ++ " " ++
      Nat.repr minutes ++ " minute" ++ (if minutes ≠ 1 then "s" else "")
  else
    Nat.repr minutes ++ " minute" ++ (if minutes ≠ 1 then "s" else "")

/-- Stable insertion modelling `Array.prototype.sort()` on strings. -/
def insertStr (x : String) : List String → List String
  | [] => [x]
  | y :: ys => if x ≤ y then x :: y :: ys else y :: insertStr x ys

def sortStrings (l : List String) : List String :=
  l.foldr insertStr []

/-- MinutesGenerator.generateMetadata; `published` is the generation time. -/
def generateMetadata (now : Nat) (s : MeetingSession) (endMs : Nat) : MinutesMetadata :=
  { title := s.roomName ++ " Meeting"
    room := s.roomName
    chair := s.chairDisplayName
    chairId := s.chairUserId
    startTime := isoString s.startTime
    endTime := isoString endMs
    duration := calculateDuration s.startTime endMs
    participants := sortStrings s.participants
    participantStats := calculateParticipantStats s
    roomId := s.roomId
    published := isoString now }

/-- MinutesGenerator.generateFrontmatter. -/
def generateFrontmatter (md : MinutesMetadata) : String :=
  let participantList :=
    String.intercalate "\n" (md.participants.map (fun u => "  - \"" ++ u ++ "\""))
  let participantStatsList :=
    String.intercalate "\n" (md.participantStats.map (fun st =>
      "  - userId: \"" ++ st.userId ++ "\"\n    displayName: \"" ++
        st.displayName ++ "\"\n    messageCount: " ++ Nat.repr st.messageCount))
  "---\ntitle: \"" ++ md.title ++ "\"\nroom: \"" ++ md.room ++ "\"\nchair: \"" ++
    md.chair ++ "\"\nchairId: \"" ++ md.chairId ++ "\"\nstartTime: \"" ++
    md.startTime ++ "\"\nendTime: \"" ++ md.endTime ++ "\"\nduration: \"" ++
    md.duration ++ "\"\nparticipants:\n" ++ participantList ++
    "\nparticipantStats:\n" ++ participantStatsList ++ "\nroomId: \"" ++
    md.roomId ++ "\"\npublished: \"" ++ md.published ++ "\"\n---"

/-- MinutesGenerator.generateFilename:
`YYYY-MM-DD-HH-MM-<slug>.md` from `toISOString()` fields of the start time. -/
def generateFilename (s : MeetingSession) : String :=
  let date := isoDateString s.startTime
  let time := pad2N (dateHour s.startTime) ++ "-" ++ pad2N (dateMinute s.startTime)
  let roomSlug := slugify s.roomName
  date ++ "-" ++ time ++ "-" ++ roomSlug ++ ".md"

/-- MinutesGenerator.generateMinutes; `none` models the thrown
precondition error for a session whose `endTime` is unset. -/
def generateMinutes (opts : MinutesGeneratorOptions) (now : Nat) (s : MeetingSession) :
    Option GeneratedMinutes :=
  match s.endTime with
  | none => none
  | some endMs =>
    let metadata := generateMetadata now s endMs
    some
      { content := generateFrontmatter metadata ++ "\n" ++ generateMinutesContent opts s
        filename := generateFilename s
        metadata := metadata }

/-! ## Storage providers (src/bot/src/storage) -/

/-- GitHubStorageProvider.generateFilePath: `meetings/<sanitized>/<Y-M-D-H-M>.md`.
The numeric fields come from the local-time `Date` accessors (UTC here);
the template literal prints the year unpadded and pads the others. -/
def ghGenerateFilePath (s : MeetingSession) : String :=
  let channelName := sanitizeChannelName s.roomName
  let year := Nat.repr (dateYear s.startTime)
  let month := pad2N (dateMonth s.startTime)
  let day := pad2N (dateDay s.startTime)
  let hour := pad2N (dateHour s.startTime)
  let minute := pad2N (dateMinute s.startTime)
  let filename := year ++ "-" ++ month ++ "-" ++ day ++ "-" ++ hour ++ "-" ++ minute ++ ".md"
  "meetings/" ++ channelName ++ "/" ++ filename

/-- LocalStorageProvider.generateFilePath (same shape, no `meetings/` root). -/
def localGenerateFilePath (s : MeetingSession) : String :=
  let channelName := sanitizeChannelName s.roomName
  let year := Nat.repr (dateYear s.startTime)
  let month := pad2N (dateMonth s.startTime)
  let day := pad2N (dateDay s.startTime)
  let hour := pad2N (dateHour s.startTime)
  let minute := pad2N (dateMinute s.startTime)
  let filename := year ++ "-" ++ month ++ "-" ++ day ++ "-" ++ hour ++ "-" ++ minute ++ ".md"
  channelName ++ "/" ++ filename

/-- LocalStorageProvider.saveMinutes writes to
`` `${this.directory}/${filePath}` ``. -/
def localSaveMinutesPath (directory : String) (s : MeetingSession) : String :=
  directory ++ "/" ++ localGenerateFilePath s

/-! ## MeetingManager (src/bot/src/bot/meeting-manager.ts)

State: the in-memory `activeSessions` map (roomId → session) plus the two
Deno KV "tables" written by `persistSession`: `["sessions", id]` (history)
and `["active_sessions", roomId]` (active index).  Each mutating operation
takes a `persistOk : Bool` oracle deciding whether its KV write throws;
when it throws, no KV write of that operation takes effect and the
operation's `catch` block produces the failure result (with the error text
abstracted to a fixed string).  The nondeterministic inputs of the source
(`new Date()`, `Date.now()`, the random session-id suffix) are passed in as
parameters. -/

structure MgrState where
  activeSessions : List (String × MeetingSession)
  kvSessions : List (String × SessionData)
  kvActive : List (String × SessionData)
deriving DecidableEq, Repr

def initMgrState : MgrState :=
  { activeSessions := [], kvSessions := [], kvActive := [] }

/-- `persistSession`: flatten the participant set, write the history entry,
and (only while the meeting is ongoing) the active-index entry. -/
def serializeSession (s : MeetingSession) : SessionData :=
  { id := s.id
    roomId := s.roomId
    roomName := s.roomName
    chairUserId := s.chairUserId
    chairDisplayName := s.chairDisplayName
    startTime := s.startTime
    endTime := s.endTime
    messages := s.messages
    participants := s.participants
    topic := s.topic }

def persistSession (s : MeetingSession) (st : MgrState) : MgrState :=
  let sessionData := serializeSession s
  let st1 := { st with kvSessions := alSet s.id sessionData st.kvSessions }
  if s.endTime = none then
    { st1 with kvActive := alSet s.roomId sessionData st1.kvActive }
  else st1

/-- The session reconstruction in `recoverActiveSessions`: spread the
serialized record, rehydrate the timestamps and the participant set. -/
def rehydrateSession (sd : SessionData) : MeetingSession :=
  { id := sd.id
    roomId := sd.roomId
    roomName := sd.roomName
    chairUserId := sd.chairUserId
    chairDisplayName := sd.chairDisplayName
    startTime := sd.startTime
    endTime := sd.endTime
    messages := sd.messages
    participants := setFromList sd.participants
    topic := sd.topic }

/-- `recoverActiveSessions`: rebuild the in-memory registry from every
persisted active-index entry. -/
def recoverRegistry (entries : List (String × SessionData)) :
    List (String × MeetingSession) :=
  entries.foldl (fun reg e => alSet e.1 (rehydrateSession e.2) reg) []

structure StartResult where
  success : Bool
  message : String
  session : Option MeetingSession
deriving DecidableEq, Repr

structure EndResult where
  success : Bool
  message : String
  session : Option MeetingSession
  minutes : Option GeneratedMinutes
deriving DecidableEq, Repr

structure TopicResult where
  success : Bool
  message : String
deriving DecidableEq, Repr

structure StatusResult where
  hasActiveMeeting : Bool
  session : Option MeetingSession
  messageCount : Option Nat
  duration : Option String
deriving DecidableEq, Repr

/-- `MeetingManager.startMeeting`.  `sid` is the generated session id
(room id, creation time and random suffix in the source). -/
def startMeeting (roomId roomName chairUserId chairDisplayName : String)
    (now : Nat) (sid : String) (persistOk : Bool) (st : MgrState) :
    StartResult × MgrState :=
  if (alGet roomId st.activeSessions).isSome then
    ({ success := false
       message := "A meeting is already active in this room. Please end the current meeting before starting a new one."
       session := none }, st)
  else
    let session : MeetingSession :=
      { id := sid
        roomId := roomId
        roomName := roomName
        chairUserId := chairUserId
        chairDisplayName := chairDisplayName
        startTime := now
        endTime := none
        messages := []
        participants := [chairUserId]
        topic := none }
    let st1 := { st with activeSessions := alSet roomId session st.activeSessions }
    if persistOk then
      ({ success := true
         message := roomName ++ " meeting initiated by " ++ chairDisplayName ++
           " acting as chair.\nA record of all messages will be automatically archived."
         session := some session }, persistSession session st1)
    else
      ({ success := false
         message := "Failed to start meeting: persistence error"
         session := none }, st1)

/-- `MeetingManager.endMeeting`.  The registry entry is mutated
(`session.endTime = new Date()`) before minutes generation and
persistence, so on failure the ended-but-undeleted session stays in the
registry. -/
def endMeeting (gopts : MinutesGeneratorOptions) (roomId : String) (now : Nat)
    (persistOk : Bool) (st : MgrState) : EndResult × MgrState :=
  match alGet roomId st.activeSessions with
  | none =>
    ({ success := false
       message := "No active meeting found in this room."
       session := none
       minutes := none }, st)
  | some s =>
    let s' := { s with endTime := some now }
    let st1 := { st with activeSessions := alSet roomId s' st.activeSessions }
    match generateMinutes gopts now s' with
    | none =>
      ({ success := false
         message := "Failed to generate meeting minutes: generation error"
         session := none
         minutes := none }, st1)
    | some minutes =>
      if persistOk then
        let st2 := persistSession s' st1
        let st3 := { st2 with activeSessions := alDelete roomId st2.activeSessions }
        let st4 := { st3 with kvActive := alDelete roomId st3.kvActive }
        ({ success := true
           message := s.roomName ++ " meeting has ended. Duration: " ++
             calculateDuration s.startTime now ++
             ". Minutes have been generated and are ready for upload."
           session := some s'
           minutes := some minutes }, st4)
      else
        ({ success := false
           message := "Failed to end meeting: persistence error"
           session := none
           minutes := none }, st1)

/-- `MeetingManager.cancelMeeting`: purge the session from the registry and
both KV tables; `kvOk` decides whether the KV deletes throw. -/
def cancelMeeting (roomId : String) (kvOk : Bool) (st : MgrState) :
    EndResult × MgrState :=
  match alGet roomId st.activeSessions with
  | none =>
    ({ success := false
       message := "No active meeting found in this room."
       session := none
       minutes := none }, st)
  | some s =>
    let st1 := { st with activeSessions := alDelete roomId st.activeSessions }
    if kvOk then
      let st2 := { st1 with kvActive := alDelete roomId st1.kvActive }
      let st3 := { st2 with kvSessions := alDelete s.id st2.kvSessions }
      ({ success := true
         message := s.roomName ++ " meeting has been cancelled. No minutes will be generated."
         session := none
         minutes := none }, st3)
    else
      ({ success := false
         message := "Failed to cancel meeting: kv error"
         session := none
         minutes := none }, st1)

/-- `MeetingManager.getMeetingStatus` (read-only). -/
def getMeetingStatus (roomId : String) (now : Nat) (st : MgrState) : StatusResult :=
  match alGet roomId st.activeSessions with
  | none =>
    { hasActiveMeeting := false, session := none, messageCount := none, duration := none }
  | some s =>
    { hasActiveMeeting := true
      session := some s
      messageCount := some s.messages.length
      duration := some (calculateDuration s.startTime now) }

/-- `MeetingManager.setMeetingTopic`. -/
def setMeetingTopic (roomId topic : String) (persistOk : Bool) (st : MgrState) :
    TopicResult × MgrState :=
  match alGet roomId st.activeSessions with
  | none =>
    ({ success := false
       message := "No active meeting found in this room. Start a meeting first with #startmeeting." }, st)
  | some s =>
    let s' := { s with topic := some topic }
    let st1 := { st with activeSessions := alSet roomId s' st.activeSessions }
    if persistOk then
      ({ success := true, message := "Topic updated successfully." }, persistSession s' st1)
    else
      ({ success := false, message := "Failed to set topic: persistence error" }, st1)

/-- The `CapturedMessage` built by `captureMessage`. -/
def mkCapturedMessage (ev : MatrixEvent) (senderDisplayName : String) : CapturedMessage :=
  { timestamp := ev.origin_server_ts
    senderId := ev.sender
    senderDisplayName := senderDisplayName
    content := ev.content.body
    messageType := ev.content.msgtype
    eventId := ev.event_id
    isEdited := false
    originalEventId := none }

/-- `MeetingManager.captureMessage`.  The gate
`!content.msgtype || !["m.text", "m.emote", "m.notice"].includes(content.msgtype)`
rejects an absent `msgtype` and any value outside the list (the falsy empty
string is outside the list as well). -/
def captureMessage (roomId : String) (ev : MatrixEvent) (senderDisplayName : String)
    (persistOk : Bool) (st : MgrState) : Bool × MgrState :=
  match alGet roomId st.activeSessions with
  | none => (false, st)
  | some s =>
    let allowed := match ev.content.msgtype with
      | none => false
      | some t => ["m.text", "m.emote", "m.notice"].contains t
    if allowed then
      let msg := mkCapturedMessage ev senderDisplayName
      let s' := { s with
        messages := s.messages ++ [msg]
        participants := setAdd s.participants ev.sender }
      let st1 := { st with activeSessions := alSet roomId s' st.activeSessions }
      if persistOk then (true, persistSession s' st1) else (false, st1)
    else (false, st)

/-- The `CapturedMessage` built by `captureMessageEdit`: flagged edited,
back-reference to the original, `msgtype` copied with no validation. -/
def mkEditedMessage (ev : MatrixEvent) (originalEventId senderDisplayName : String) :
    CapturedMessage :=
  { timestamp := ev.origin_server_ts
    senderId := ev.sender
    senderDisplayName := senderDisplayName
    content := ev.content.body
    messageType := ev.content.msgtype
    eventId := ev.event_id
    isEdited := true
    originalEventId := some originalEventId }

/-- `MeetingManager.captureMessageEdit`: no message-type gate. -/
def captureMessageEdit (roomId : String) (ev : MatrixEvent)
    (originalEventId senderDisplayName : String) (persistOk : Bool) (st : MgrState) :
    Bool × MgrState :=
  match alGet roomId st.activeSessions with
  | none => (false, st)
  | some s =>
    let msg := mkEditedMessage ev originalEventId senderDisplayName
    let s' := { s with
      messages := s.messages ++ [msg]
      participants := setAdd s.participants ev.sender }
    let st1 := { st with activeSessions := alSet roomId s' st.activeSessions }
    if persistOk then (true, persistSession s' st1) else (false, st1)

/-- `MeetingManager.recordParticipantEvent`; `isJoin` is
`eventType === "join"` and `now` is both `new Date()` and the `Date.now()`
of the synthetic event id. -/
def recordParticipantEvent (roomId userId displayName : String) (isJoin : Bool)
    (now : Nat) (persistOk : Bool) (st : MgrState) : Bool × MgrState :=
  match alGet roomId st.activeSessions with
  | none => (false, st)
  | some s =>
    let eventMessage : CapturedMessage :=
      { timestamp := now
        senderId := "system"
        senderDisplayName := "System"
        content := displayName ++ " " ++ (if isJoin then "joined" else "left") ++ " the meeting."
        messageType := some "m.notice"
        eventId := "system-" ++ Nat.repr now
        isEdited := false
        originalEventId := none }
    let s' := { s with
      messages := s.messages ++ [eventMessage]
      participants := if isJoin then setAdd s.participants userId else s.participants }
    let st1 := { st with activeSessions := alSet roomId s' st.activeSessions }
    if persistOk then (true, persistSession s' st1) else (false, st1)

/-- `MeetingManagerOptions` (the `minutesGeneration` field is accepted by
the constructor). -/
structure MinutesGenerationOverrides where
  includeSystemMessages : Option Bool
  timeZone : Option String
deriving DecidableEq, Repr

structure MeetingManagerOptions where
  kvPath : Option String
  minutesGeneration : Option MinutesGenerationOverrides
deriving DecidableEq, Repr

/-- The manager configuration produced by the `MeetingManager` constructor:
it stores `kvPath` and builds `new MinutesGenerator()` with no arguments. -/
structure MeetingManagerCfg where
  kvPath : Option String
  genOptions : MinutesGeneratorOptions
deriving DecidableEq, Repr

def mkMeetingManager (options : MeetingManagerOptions) : MeetingManagerCfg :=
  { kvPath := options.kvPath
    genOptions := mkMinutesGeneratorOptions none none }

/-- One inbound operation of the manager, with its nondeterministic inputs
(clock, generated id, KV success) made explicit. -/
inductive MgrOp where
  | start (roomId roomName chairUserId chairDisplayName : String)
      (now : Nat) (sid : String) (persistOk : Bool)
  | endM (roomId : String) (now : Nat) (persistOk : Bool)
  | cancel (roomId : String) (kvOk : Bool)
  | setTopic (roomId topic : String) (persistOk : Bool)
  | capture (roomId : String) (ev : MatrixEvent) (senderDisplayName : String)
      (persistOk : Bool)
  | captureEdit (roomId : String) (ev : MatrixEvent)
      (originalEventId senderDisplayName : String) (persistOk : Bool)
  | participantEvent (roomId userId displayName : String) (isJoin : Bool)
      (now : Nat) (persistOk : Bool)
deriving DecidableEq, Repr

def applyOp (gopts : MinutesGeneratorOptions) (op : MgrOp) (st : MgrState) : MgrState :=
  match op with
  | .start roomId roomName chairUserId chairDisplayName now sid persistOk =>
    (startMeeting roomId roomName chairUserId chairDisplayName now sid persistOk st).2
  | .endM roomId now persistOk => (endMeeting gopts roomId now persistOk st).2
  | .cancel roomId kvOk => (cancelMeeting roomId kvOk st).2
  | .setTopic roomId topic persistOk => (setMeetingTopic roomId topic persistOk st).2
  | .capture roomId ev disp persistOk => (captureMessage roomId ev disp persistOk st).2
  | .captureEdit roomId ev orig disp persistOk =>
    (captureMessageEdit roomId ev orig disp persistOk st).2
  | .participantEvent roomId userId disp isJoin now persistOk =>
    (recordParticipantEvent roomId userId disp isJoin now persistOk st).2

def applyOps (gopts : MinutesGeneratorOptions) (ops : List MgrOp) (st : MgrState) : MgrState :=
  ops.foldl (fun st op => applyOp gopts op st) st

/-- The amended shared path convention of §4.3, stated from the spec's
words with the corrections the code forces: the directory component uses
`sanitizeChannelName` (not `slugify`), and the file name is the start
date/time only, without a repeated room slug. -/
def sharedPathAmended (root : String) (s : MeetingSession) : String :=
  root ++ "/" ++ sanitizeChannelName s.roomName ++ "/" ++
    (Nat.repr (dateYear s.startTime) ++ "-" ++ pad2N (dateMonth s.startTime) ++ "-" ++
      pad2N (dateDay s.startTime) ++ "-" ++ pad2N (dateHour s.startTime) ++ "-" ++
      pad2N (dateMinute s.startTime) ++ ".md")

/-- The pair that actually determines a generated minutes document name:
the room slug together with the start instant truncated to minutes. -/
def filenameKey (s : MeetingSession) : String × String :=
  (slugify s.roomName,
    isoDateString s.startTime ++ "-" ++ pad2N (dateHour s.startTime) ++ "-" ++
      pad2N (dateMinute s.startTime))

/-- The effect of the dedup fold of `filterDuplicateEdits` restricted to a
single key: the first message is kept and every later edited message
overwrites the stored one. -/
def applyK : Option CapturedMessage → List CapturedMessage → Option CapturedMessage
  | cur, [] => cur
  | cur, m :: rest =>
    applyK (match cur with
            | none => some m
            | some c => if m.isEdited then some m else some c) rest

/-- The effect of the counting fold of `calculateParticipantStats`
restricted to a single sender: each message bumps the count and updates
the display name. -/
def statFoldK : Option (String × Nat) → List CapturedMessage → Option (String × Nat)
  | cur, [] => cur
  | cur, m :: rest =>
    statFoldK (some (m.senderDisplayName,
      (match cur with | some pr => pr.2 | none => 0) + 1)) rest

/-! ## Concrete fixtures used by witnesses and counterexamples -/

def sampleSession : MeetingSession :=
  { id := "sid1"
    roomId := "!r:x"
    roomName := "Dev Room"
    chairUserId := "@chair:x"
    chairDisplayName := "Chair"
    startTime := 1705744800000
    endTime := none
    messages := []
    participants := ["@chair:x"]
    topic := none }

def sampleState : MgrState :=
  { activeSessions := [("!r:x", sampleSession)], kvSessions := [], kvActive := [] }

def imageEvent : MatrixEvent :=
  { event_id := "$img:x"
    sender := "@u:x"
    origin_server_ts := 1705744860000
    content := { msgtype := some "m.image", body := "cat.png" } }

def aliceMessage : CapturedMessage :=
  { timestamp := 36000000
    senderId := "@alice:x"
    senderDisplayName := "Alice"
    content := "hello"
    messageType := some "m.text"
    eventId := "$a1:x"
    isEdited := false
    originalEventId := none }

def textSession : MeetingSession :=
  { id := "t1"
    roomId := "!t:x"
    roomName := "Text Room"
    chairUserId := "@alice:x"
    chairDisplayName := "Alice"
    startTime := 36000000
    endTime := some 36060000
    messages := [aliceMessage]
    participants := ["@alice:x"]
    topic := none }

def msgA : CapturedMessage :=
  { timestamp := 36000000
    senderId := "@s:x"
    senderDisplayName := "S One"
    content := "hello"
    messageType := some "m.text"
    eventId := "$a:x"
    isEdited := false
    originalEventId := none }

def msgB : CapturedMessage :=
  { timestamp := 36000000
    senderId := "@s:x"
    senderDisplayName := "S One"
    content := "hello world"
    messageType := some "m.text"
    eventId := "$b:x"
    isEdited := true
    originalEventId := some "$a:x" }

def editSession : MeetingSession :=
  { id := "e1"
    roomId := "!e:x"
    roomName := "Edit Room"
    chairUserId := "@s:x"
    chairDisplayName := "S One"
    startTime := 36000000
    endTime := some 36060000
    messages := [msgA, msgB]
    participants := ["@s:x"]
    topic := none }

def opsSession : MeetingSession :=
  { id := "sid7"
    roomId := "!r2:x"
    roomName := "Ops"
    chairUserId := "@c:x"
    chairDisplayName := "C"
    startTime := 7
    endTime := none
    messages := []
    participants := ["@c:x"]
    topic := none }

/-! ## Helper lemmas -/

theorem persistSession_activeSessions (s : MeetingSession) (st : MgrState) :
    (persistSession s st).activeSessions = st.activeSessions := by
  unfold persistSession
  split <;> rfl

theorem recover_foldl_not_mem (k : String) :
    ∀ (entries : List (String × SessionData)) (acc : List (String × MeetingSession)),
      k ∉ alKeys entries →
      alGet k (entries.foldl (fun reg e => alSet e.1 (rehydrateSession e.2) reg) acc)
        = alGet k acc := by
  intro entries
  induction entries with
  | nil => intro acc _; rfl
  | cons e rest ih =>
    intro acc hk
    obtain ⟨ek, esd⟩ := e
    have hk1 : k ≠ ek := fun hc => hk (by simp [alKeys, hc])
    have hk2 : k ∉ alKeys rest := fun hc => hk (by simp [alKeys]; right; simpa [alKeys] using hc)
    rw [List.foldl_cons, ih _ hk2, alGet_alSet_ne ek k _ acc (Ne.symm hk1)]

theorem alGet_recover_foldl (k : String) :
    ∀ (entries : List (String × SessionData)) (acc : List (String × MeetingSession)),
      alWF entries →
      alGet k (entries.foldl (fun reg e => alSet e.1 (rehydrateSession e.2) reg) acc)
        = (match alGet k entries with
           | some sd => some (rehydrateSession sd)
           | none => alGet k acc) := by
  intro entries
  induction entries with
  | nil => intro acc _; rfl
  | cons e rest ih =>
    intro acc hnd
    obtain ⟨ek, esd⟩ := e
    have hnd' : alWF rest := by
      simpa [alWF, alKeys] using ((List.nodup_cons.mp (by simpa [alWF, alKeys] using hnd)).2)
    by_cases hke : ek = k
    · subst hke
      have hkrest : ek ∉ alKeys rest :=
        (List.nodup_cons.mp (by simpa [alWF, alKeys] using hnd)).1
      rw [List.foldl_cons, recover_foldl_not_mem ek rest _ hkrest, alGet_alSet_self]
      simp [alGet]
    · rw [List.foldl_cons, ih _ hnd']
      have hskip : alGet k ((ek, esd) :: rest) = alGet k rest := by simp [alGet, hke]
      rw [hskip]
      cases halg : alGet k rest with
      | some sd => rfl
      | none => simp [alGet_alSet_ne ek k _ acc hke]

/-- The in-memory registry reconstructed by recovery, looked up at a key,
is the rehydration of the persisted active-index entry at that key. -/
theorem alGet_recoverRegistry (entries : List (String × SessionData)) (k : String)
    (hnd : alWF entries) :
    alGet k (recoverRegistry entries)
      = (match alGet k entries with
         | some sd => some (rehydrateSession sd)
         | none => none) := by
  unfold recoverRegistry
  rw [alGet_recover_foldl k entries [] hnd]
  cases alGet k entries <;> rfl

/-- Per-operation preservation of the registry well-formedness (one entry
per room id). -/
theorem applyOp_preserves_regWF (g : MinutesGeneratorOptions) (op : MgrOp) (st : MgrState)
    (h : alWF st.activeSessions) : alWF (applyOp g op st).activeSessions := by
  cases op with
  | start roomId roomName chairUserId chairDisplayName now sid pOk =>
    simp only [applyOp, startMeeting]
    split
    · exact h
    · split
      · rw [persistSession_activeSessions]
        exact alWF_alSet _ _ _ h
      · exact alWF_alSet _ _ _ h
  | endM roomId now pOk =>
    simp only [applyOp, endMeeting]
    split
    · exact h
    · split
      · exact alWF_alSet _ _ _ h
      · split
        · exact alWF_alDelete _ _
            (by rw [persistSession_activeSessions]; exact alWF_alSet _ _ _ h)
        · exact alWF_alSet _ _ _ h
  | cancel roomId kvOk =>
    simp only [applyOp, cancelMeeting]
    split
    · exact h
    · split
      · exact alWF_alDelete _ _ h
      · exact alWF_alDelete _ _ h
  | setTopic roomId topic pOk =>
    simp only [applyOp, setMeetingTopic]
    split
    · exact h
    · split
      · rw [persistSession_activeSessions]
        exact alWF_alSet _ _ _ h
      · exact alWF_alSet _ _ _ h
  | capture roomId ev disp pOk =>
    simp only [applyOp, captureMessage]
    split
    · exact h
    · split
      · split
        · rw [persistSession_activeSessions]
          exact alWF_alSet _ _ _ h
        · exact alWF_alSet _ _ _ h
      · exact h
  | captureEdit roomId ev orig disp pOk =>
    simp only [applyOp, captureMessageEdit]
    split
    · exact h
    · split
      · rw [persistSession_activeSessions]
        exact alWF_alSet _ _ _ h
      · exact alWF_alSet _ _ _ h
  | participantEvent roomId userId disp isJoin now pOk =>
    simp only [applyOp, recordParticipantEvent]
    split
    · exact h
    · split
      · rw [persistSession_activeSessions]
        exact alWF_alSet _ _ _ h
      · exact alWF_alSet _ _ _ h

theorem applyOps_preserves_regWF (g : MinutesGeneratorOptions) :
    ∀ (ops : List MgrOp) (st : MgrState), alWF st.activeSessions →
      alWF (applyOps g ops st).activeSessions := by
  intro ops
  induction ops with
  | nil => intro st h; exact h
  | cons op rest ih =>
    intro st h
    exact ih _ (applyOp_preserves_regWF g op st h)

theorem insertByTs_perm (x : CapturedMessage) (l : List CapturedMessage) :
    (insertByTs x l).Perm (x :: l) := by
  induction l with
  | nil => exact List.Perm.refl _
  | cons y ys ih =>
    unfold insertByTs
    split
    · exact List.Perm.refl _
    · exact (ih.cons y).trans (List.Perm.swap x y ys)

theorem sortByTs_perm (l : List CapturedMessage) : (sortByTs l).Perm l := by
  induction l with
  | nil => exact List.Perm.refl _
  | cons x xs ih =>
    exact (insertByTs_perm x (sortByTs xs)).trans (ih.cons x)

theorem filter_insertByTs (p : CapturedMessage → Bool) (t : Nat) (x : CapturedMessage)
    (hx : p x = true → x.timestamp = t) :
    ∀ (l : List CapturedMessage), (∀ m ∈ l, p m = true → m.timestamp = t) →
      (insertByTs x l).filter p = if p x then x :: l.filter p else l.filter p := by
  intro l
  induction l with
  | nil =>
    intro _
    cases hpx : p x <;> simp [insertByTs, hpx]
  | cons y ys ih =>
    intro hl
    have hys : ∀ m ∈ ys, p m = true → m.timestamp = t := fun m hm => hl m (by simp [hm])
    unfold insertByTs
    by_cases hts : x.timestamp ≤ y.timestamp
    · rw [if_pos hts]
      cases hpx : p x <;> simp [List.filter_cons, hpx]
    · rw [if_neg hts]
      cases hpx : p x with
      | false =>
        have hrec := ih hys
        rw [hpx] at hrec
        simp only [Bool.false_eq_true, if_neg] at hrec
        cases hpy : p y <;> simp [List.filter_cons, hpy, hrec, hpx]
      | true =>
        have hpy : p y = false := by
          cases hpyc : p y with
          | false => rfl
          | true =>
            exact absurd (by rw [hx hpx, hl y (by simp) hpyc]) hts
        have hrec := ih hys
        rw [hpx] at hrec
        simp only [if_pos rfl] at hrec
        simp [List.filter_cons, hpy, hrec, hpx]

theorem filter_sortByTs (p : CapturedMessage → Bool) (t : Nat) :
    ∀ (l : List CapturedMessage), (∀ m ∈ l, p m = true → m.timestamp = t) →
      (sortByTs l).filter p = l.filter p := by
  intro l
  induction l with
  | nil => intro _; rfl
  | cons x xs ih =>
    intro hl
    have hx : p x = true → x.timestamp = t := hl x (by simp)
    have hxs : ∀ m ∈ xs, p m = true → m.timestamp = t := fun m hm => hl m (by simp [hm])
    have hsort : ∀ m ∈ sortByTs xs, p m = true → m.timestamp = t := fun m hm =>
      hxs m ((sortByTs_perm xs).mem_iff.mp hm)
    show (insertByTs x (sortByTs xs)).filter p = _
    rw [filter_insertByTs p t x hx (sortByTs xs) hsort, ih hxs]
    cases hpx : p x <;> simp [List.filter_cons, hpx]

theorem alGet_fdeStep_ne (K : String) (acc : List (String × CapturedMessage))
    (m : CapturedMessage) (h : dedupKey m ≠ K) :
    alGet K (fdeStep acc m) = alGet K acc := by
  cases halg : alGet (dedupKey m) acc with
  | none => simp [fdeStep, halg, alGet_alSet_ne _ _ _ _ h]
  | some c => cases hE : m.isEdited <;> simp [fdeStep, halg, hE, alGet_alSet_ne _ _ _ _ h]

theorem alGet_fdeStep_eq (acc : List (String × CapturedMessage)) (m : CapturedMessage) :
    alGet (dedupKey m) (fdeStep acc m)
      = (match alGet (dedupKey m) acc with
         | none => some m
         | some c => if m.isEdited then some m else some c) := by
  cases halg : alGet (dedupKey m) acc with
  | none => simp [fdeStep, halg, alGet_alSet_self]
  | some c => cases hE : m.isEdited <;> simp [fdeStep, halg, hE, alGet_alSet_self]

theorem alGet_foldl_fdeStep (K : String) :
    ∀ (ms : List CapturedMessage) (acc : List (String × CapturedMessage)),
      alGet K (ms.foldl fdeStep acc)
        = applyK (alGet K acc) (ms.filter (fun m => decide (dedupKey m = K))) := by
  intro ms
  induction ms with
  | nil => intro acc; rfl
  | cons m rest ih =>
    intro acc
    rw [List.foldl_cons, ih]
    by_cases hK : dedupKey m = K
    · subst hK
      have hfil : (m :: rest).filter (fun m' => decide (dedupKey m' = dedupKey m))
          = m :: rest.filter (fun m' => decide (dedupKey m' = dedupKey m)) := by
        simp [List.filter_cons]
      rw [hfil, alGet_fdeStep_eq]
      rfl
    · rw [alGet_fdeStep_ne K acc m hK]
      have hfil : (m :: rest).filter (fun m' => decide (dedupKey m' = K))
          = rest.filter (fun m' => decide (dedupKey m' = K)) := by
        simp [List.filter_cons, hK]
      rw [hfil]

theorem mem_alSet_cases (k : String) (v : α) :
    ∀ (l : List (String × α)) (p : String × α), p ∈ alSet k v l → p = (k, v) ∨ p ∈ l := by
  intro l
  induction l with
  | nil => intro p hp; simpa [alSet] using hp
  | cons q rest ih =>
    intro p hp
    obtain ⟨qk, qv⟩ := q
    by_cases hq : qk = k
    · rw [alSet, if_pos hq] at hp
      rcases List.mem_cons.mp hp with h1 | h1
      · exact Or.inl h1
      · exact Or.inr (List.mem_cons_of_mem _ h1)
    · rw [alSet, if_neg hq] at hp
      rcases List.mem_cons.mp hp with h1 | h1
      · exact Or.inr (h1 ▸ List.mem_cons_self _ _)
      · rcases ih p h1 with h2 | h2
        · exact Or.inl h2
        · exact Or.inr (List.mem_cons_of_mem _ h2)

theorem fde_entries_key :
    ∀ (ms : List CapturedMessage) (acc : List (String × CapturedMessage)),
      (∀ p ∈ acc, p.1 = dedupKey p.2) →
      ∀ p ∈ ms.foldl fdeStep acc, p.1 = dedupKey p.2 := by
  intro ms
  induction ms with
  | nil => intro acc hacc; exact hacc
  | cons m rest ih =>
    intro acc hacc
    refine ih (fdeStep acc m) ?_
    intro p hp
    have hstep : p ∈ alSet (dedupKey m) m acc ∨ p ∈ acc := by
      unfold fdeStep at hp
      rcases hmatch : alGet (dedupKey m) acc with _ | c
      · rw [hmatch] at hp
        exact Or.inl hp
      · rw [hmatch] at hp
        by_cases hE : m.isEdited = true
        · rw [if_pos hE] at hp
          exact Or.inl hp
        · rw [if_neg hE] at hp
          exact Or.inr hp
    rcases hstep with h1 | h1
    · rcases mem_alSet_cases (dedupKey m) m acc p h1 with h2 | h2
      · rw [h2]
      · exact hacc p h2
    · exact hacc p h1

theorem fde_entries_mem :
    ∀ (ms : List CapturedMessage) (acc : List (String × CapturedMessage)),
      ∀ p ∈ ms.foldl fdeStep acc, p ∈ acc ∨ p.2 ∈ ms := by
  intro ms
  induction ms with
  | nil => intro acc p hp; exact Or.inl hp
  | cons m rest ih =>
    intro acc p hp
    rcases ih (fdeStep acc m) p hp with h1 | h1
    · have hstep : p ∈ alSet (dedupKey m) m acc ∨ p ∈ acc := by
        unfold fdeStep at h1
        rcases hmatch : alGet (dedupKey m) acc with _ | c
        · rw [hmatch] at h1
          exact Or.inl h1
        · rw [hmatch] at h1
          by_cases hE : m.isEdited = true
          · rw [if_pos hE] at h1
            exact Or.inl h1
          · rw [if_neg hE] at h1
            exact Or.inr h1
      rcases hstep with h2 | h2
      · rcases mem_alSet_cases (dedupKey m) m acc p h2 with h3 | h3
        · exact Or.inr (by rw [h3]; exact List.mem_cons_self _ _)
        · exact Or.inl h3
      · exact Or.inl h2
    · exact Or.inr (List.mem_cons_of_mem _ h1)

theorem fde_wf :
    ∀ (ms : List CapturedMessage) (acc : List (String × CapturedMessage)),
      alWF acc → alWF (ms.foldl fdeStep acc) := by
  intro ms
  induction ms with
  | nil => intro acc h; exact h
  | cons m rest ih =>
    intro acc h
    refine ih (fdeStep acc m) ?_
    unfold fdeStep
    rcases alGet (dedupKey m) acc with _ | c
    · exact alWF_alSet _ _ _ h
    · by_cases hE : m.isEdited = true
      · rw [if_pos hE]
        exact alWF_alSet _ _ _ h
      · rw [if_neg hE]
        exact h

theorem filter_key_of_alGet (K : String) :
    ∀ (l : List (String × α)), alWF l →
      l.filter (fun p => decide (p.1 = K))
        = (match alGet K l with | some v => [(K, v)] | none => []) := by
  intro l
  induction l with
  | nil => intro _; rfl
  | cons q rest ih =>
    intro hwf
    obtain ⟨qk, qv⟩ := q
    have hwf' : alWF rest := by
      simpa [alWF, alKeys] using (List.nodup_cons.mp (by simpa [alWF, alKeys] using hwf)).2
    have hnotin : qk ∉ alKeys rest :=
      (List.nodup_cons.mp (by simpa [alWF, alKeys] using hwf)).1
    by_cases hk : qk = K
    · subst hk
      have hrest : rest.filter (fun p => decide (p.1 = qk)) = [] := by
        apply List.filter_eq_nil_iff.mpr
        intro p hp
        have : p.1 ≠ qk := fun hc => hnotin (hc ▸ List.mem_map_of_mem Prod.fst hp)
        simp [this]
      simp [List.filter_cons, alGet, hrest]
    · have hget : alGet K ((qk, qv) :: rest) = alGet K rest := by simp [alGet, hk]
      rw [hget, ← ih hwf']
      simp [List.filter_cons, hk]

theorem filter_dedup_map_snd (K : String) :
    ∀ (l : List (String × CapturedMessage)), (∀ p ∈ l, p.1 = dedupKey p.2) →
      (l.map Prod.snd).filter (fun m => decide (dedupKey m = K))
        = (l.filter (fun p => decide (p.1 = K))).map Prod.snd := by
  intro l
  induction l with
  | nil => intro _; rfl
  | cons q rest ih =>
    intro hl
    have hq : q.1 = dedupKey q.2 := hl q (List.mem_cons_self _ _)
    have hrest := ih (fun p hp => hl p (List.mem_cons_of_mem _ hp))
    by_cases hk : dedupKey q.2 = K
    · have hk1 : q.1 = K := by rw [hq, hk]
      simp [List.filter_cons, hk, hk1, hrest]
    · have hk1 : ¬q.1 = K := by rw [hq]; exact hk
      simp [List.filter_cons, hk, hk1, hrest]

theorem alGet_statStep (S : String) (hS : S ≠ "system")
    (acc : List (String × (String × Nat))) (m : CapturedMessage) :
    alGet S (statStep acc m)
      = if m.senderId = S then
          some (m.senderDisplayName,
            (match alGet S acc with | some pr => pr.2 | none => 0) + 1)
        else alGet S acc := by
  unfold statStep
  by_cases hsys : m.senderId = "system"
  · rw [if_pos hsys, if_neg (by rw [hsys]; exact Ne.symm hS)]
  · rw [if_neg hsys]
    by_cases hms : m.senderId = S
    · rw [if_pos hms]
      simp [hms, alGet_alSet_self]
    · rw [if_neg hms]
      exact alGet_alSet_ne _ _ _ _ hms

theorem alGet_foldl_statStep (S : String) (hS : S ≠ "system") :
    ∀ (ms : List CapturedMessage) (acc : List (String × (String × Nat))),
      alGet S (ms.foldl statStep acc)
        = statFoldK (alGet S acc) (ms.filter (fun m => decide (m.senderId = S))) := by
  intro ms
  induction ms with
  | nil => intro acc; rfl
  | cons m rest ih =>
    intro acc
    rw [List.foldl_cons, ih]
    by_cases hms : m.senderId = S
    · have hfil : (m :: rest).filter (fun m' => decide (m'.senderId = S))
          = m :: rest.filter (fun m' => decide (m'.senderId = S)) := by
        simp [List.filter_cons, hms]
      rw [hfil, alGet_statStep S hS, if_pos hms]
      rfl
    · have hfil : (m :: rest).filter (fun m' => decide (m'.senderId = S))
          = rest.filter (fun m' => decide (m'.senderId = S)) := by
        simp [List.filter_cons, hms]
      rw [hfil, alGet_statStep S hS, if_neg hms]

theorem stat_wf :
    ∀ (ms : List CapturedMessage) (acc : List (String × (String × Nat))),
      alWF acc → alWF (ms.foldl statStep acc) := by
  intro ms
  induction ms with
  | nil => intro acc h; exact h
  | cons m rest ih =>
    intro acc h
    refine ih (statStep acc m) ?_
    unfold statStep
    by_cases hsys : m.senderId = "system"
    · rw [if_pos hsys]
      exact h
    · rw [if_neg hsys]
      exact alWF_alSet _ _ _ h

theorem insertStatDesc_perm (x : ParticipantStat) (l : List ParticipantStat) :
    (insertStatDesc x l).Perm (x :: l) := by
  induction l with
  | nil => exact List.Perm.refl _
  | cons y ys ih =>
    unfold insertStatDesc
    split
    · exact List.Perm.refl _
    · exact (ih.cons y).trans (List.Perm.swap x y ys)

theorem sortStatsDesc_perm (l : List ParticipantStat) : (sortStatsDesc l).Perm l := by
  induction l with
  | nil => exact List.Perm.refl _
  | cons x xs ih =>
    exact (insertStatDesc_perm x (sortStatsDesc xs)).trans (ih.cons x)

theorem stats_filter_map (S : String) :
    ∀ (l : List (String × (String × Nat))),
      ((l.map (fun e => (⟨e.1, e.2.1, e.2.2⟩ : ParticipantStat))).filter
          (fun st => decide (st.userId = S)))
        = (l.filter (fun e => decide (e.1 = S))).map
            (fun e => (⟨e.1, e.2.1, e.2.2⟩ : ParticipantStat)) := by
  intro l
  induction l with
  | nil => rfl
  | cons e rest ih =>
    by_cases hk : e.1 = S <;> simp [List.filter_cons, hk, ih]

/-! ## Claims -/

/-- C1: from the empty initial state, any sequence of manager operations
(with arbitrary interleaving of rooms, clock values and persistence
failures) leaves each room with at most one registry entry holding an
un-ended session; moreover startMeeting on a room whose registry entry
exists fails with the conflict result and leaves the whole state
unchanged, so no second session is ever created. -/
theorem c1_at_most_one_active_session (g : MinutesGeneratorOptions) (ops : List MgrOp)
    (room : String) :
    ((applyOps g ops initMgrState).activeSessions.filter
        (fun p => decide (p.1 = room) && p.2.endTime.isNone)).length ≤ 1
    ∧ (∀ (st : MgrState) (roomName chairUserId chairDisplayName : String)
          (now : Nat) (sid : String) (pOk : Bool),
        (alGet room st.activeSessions).isSome = true →
        startMeeting room roomName chairUserId chairDisplayName now sid pOk st =
          ({ success := false
             message := "A meeting is already active in this room. Please end the current meeting before starting a new one."
             session := none }, st)) := by
  constructor
  · exact length_filter_key_le_one _
      (applyOps_preserves_regWF g ops initMgrState (by simp [initMgrState, alWF, alKeys]))
      room _
  · intro st roomName chairUserId chairDisplayName now sid pOk hactive
    unfold startMeeting
    rw [if_pos hactive]

/-- Witness for C1: a concrete two-operation run, and the conflict no-op
at a state that already holds an active session. -/
theorem c1_at_most_one_active_session_witness :
    ((applyOps (mkMinutesGeneratorOptions none none)
        [MgrOp.start "!r:x" "Dev Room" "@chair:x" "Chair" 0 "sid1" true,
         MgrOp.start "!r:x" "Dev Room" "@chair:x" "Chair" 9 "sid2" true]
        initMgrState).activeSessions.filter
      (fun p => decide (p.1 = "!r:x") && p.2.endTime.isNone)).length ≤ 1
    ∧ startMeeting "!r:x" "Other" "@u:x" "U" 3 "sid9" true sampleState =
        ({ success := false
           message := "A meeting is already active in this room. Please end the current meeting before starting a new one."
           session := none }, sampleState) := by
  refine ⟨(c1_at_most_one_active_session (mkMinutesGeneratorOptions none none) _ "!r:x").1, ?_⟩
  exact (c1_at_most_one_active_session (mkMinutesGeneratorOptions none none) [] "!r:x").2
    sampleState "Other" "@u:x" "U" 3 "sid9" true (by decide)

/-- C5: serializing an active session (participant set flattened to a
list) and recovering the persisted active index rebuilds an equivalent
session under its room id — same id, timestamps (end still unset), message
sequence and participant set.  The participant list of a manager-built
session is duplicate-free and the KV active index has one entry per room,
which the hypotheses record. -/
theorem c5_persist_recover_roundtrip (s : MeetingSession) (st : MgrState)
    (hend : s.endTime = none) (hnd : s.participants.Nodup) (hwf : alWF st.kvActive) :
    rehydrateSession (serializeSession s) = s
    ∧ alGet s.roomId (recoverRegistry ((persistSession s st).kvActive)) = some s := by
  have h1 : rehydrateSession (serializeSession s) = s := by
    simp [rehydrateSession, serializeSession, setFromList_eq_self s.participants hnd]
  refine ⟨h1, ?_⟩
  have hkv : (persistSession s st).kvActive
      = alSet s.roomId (serializeSession s) st.kvActive := by
    simp [persistSession, hend]
  rw [hkv, alGet_recoverRegistry _ s.roomId (alWF_alSet _ _ _ hwf), alGet_alSet_self]
  simp [h1]

/-- Witness for C5: the round trip at a concrete active session persisted
into the empty store. -/
theorem c5_persist_recover_roundtrip_witness :
    sampleSession.endTime = none
    ∧ alGet sampleSession.roomId
        (recoverRegistry ((persistSession sampleSession initMgrState).kvActive))
      = some sampleSession := by
  refine ⟨rfl, ?_⟩
  exact (c5_persist_recover_roundtrip sampleSession initMgrState rfl (by decide)
    (by simp [initMgrState, alWF, alKeys])).2

/-- C2: in an ended session whose (sender, timestamp) slot holds exactly
an original message A and an edited message B referencing A (in either
arrival order), de-duplication keeps exactly B for that slot — so the
composed transcript, whose lines under the default options are exactly
one line per surviving message, renders the slot once with B's content —
and the sender's participant statistic counts the slot as exactly one
message, with B's display name. -/
theorem c2_edit_dedup (s : MeetingSession) (A B : CapturedMessage) (S : String)
    (hend : s.endTime.isSome = true)
    (hSA : A.senderId = S) (hSB : B.senderId = S)
    (htAB : B.timestamp = A.timestamp)
    (hAe : A.isEdited = false) (hBe : B.isEdited = true)
    (hBref : B.originalEventId = some A.eventId)
    (hslot : s.messages.filter (fun m => decide (dedupKey m = dedupKey A)) = [A, B]
      ∨ s.messages.filter (fun m => decide (dedupKey m = dedupKey A)) = [B, A])
    (hSonly : ∀ m ∈ s.messages, m.senderId = S → dedupKey m = dedupKey A)
    (hts : ∀ m ∈ s.messages, dedupKey m = dedupKey A → m.timestamp = A.timestamp)
    (hSns : S ≠ "system") :
    (filterDuplicateEdits (sortByTs s.messages)).filter
        (fun m => decide (dedupKey m = dedupKey A)) = [B]
    ∧ (filterDuplicateEdits (sortByTs s.messages)).filter
        (fun m => decide (m.senderId = S)) = [B]
    ∧ (calculateParticipantStats s).filter (fun st => decide (st.userId = S))
        = [⟨S, B.senderDisplayName, 1⟩]
    ∧ (∀ tz, minutesLines { includeSystemMessages := true, timeZone := tz } s
        = (filterDuplicateEdits (sortByTs s.messages)).map renderLine) := by
  have hwfnil : alWF ([] : List (String × CapturedMessage)) := by simp [alWF, alKeys]
  have hwfnil2 : alWF ([] : List (String × (String × Nat))) := by simp [alWF, alKeys]
  -- the dedup map holds exactly B at the slot key
  have halGK : alGet (dedupKey A) ((sortByTs s.messages).foldl fdeStep []) = some B := by
    rw [alGet_foldl_fdeStep (dedupKey A) (sortByTs s.messages) []]
    have hfil : (sortByTs s.messages).filter (fun m => decide (dedupKey m = dedupKey A))
        = s.messages.filter (fun m => decide (dedupKey m = dedupKey A)) := by
      refine filter_sortByTs _ A.timestamp s.messages ?_
      intro m hm hdm
      exact hts m hm (by simpa using hdm)
    rw [hfil]
    rcases hslot with hs1 | hs1 <;> rw [hs1] <;> simp [alGet, applyK, hAe, hBe]
  have hkey := fde_entries_key (sortByTs s.messages) [] (by simp)
  have hwffde := fde_wf (sortByTs s.messages) [] hwfnil
  -- part 1: the slot survives as exactly [B]
  have h1 : (filterDuplicateEdits (sortByTs s.messages)).filter
      (fun m => decide (dedupKey m = dedupKey A)) = [B] := by
    show (((sortByTs s.messages).foldl fdeStep []).map Prod.snd).filter
        (fun m => decide (dedupKey m = dedupKey A)) = [B]
    rw [filter_dedup_map_snd (dedupKey A) _ hkey,
      filter_key_of_alGet (dedupKey A) _ hwffde, halGK]
    rfl
  -- part 1b: the sender's surviving messages are exactly [B]
  have h2 : (filterDuplicateEdits (sortByTs s.messages)).filter
      (fun m => decide (m.senderId = S)) = [B] := by
    have hcongr : ∀ m ∈ filterDuplicateEdits (sortByTs s.messages),
        decide (m.senderId = S) = decide (dedupKey m = dedupKey A) := by
      intro m hm
      rw [decide_eq_decide]
      constructor
      · intro hms
        have hmem : m ∈ s.messages := by
          rcases List.mem_map.mp hm with ⟨p, hp, hpm⟩
          rcases fde_entries_mem (sortByTs s.messages) [] p hp with hc | hc
          · simp at hc
          · exact (sortByTs_perm s.messages).mem_iff.mp (hpm ▸ hc)
        exact hSonly m hmem hms
      · intro hdk
        have hmB : m ∈ (filterDuplicateEdits (sortByTs s.messages)).filter
            (fun m' => decide (dedupKey m' = dedupKey A)) :=
          List.mem_filter.mpr ⟨hm, by simpa using hdk⟩
        rw [h1] at hmB
        rw [List.mem_singleton.mp hmB]
        exact hSB
    rw [List.filter_congr hcongr]
    exact h1
  refine ⟨h1, h2, ?_, ?_⟩
  · -- part 2: the participant statistic
    have hcnt : alGet S ((filterDuplicateEdits (sortByTs s.messages)).foldl statStep [])
        = some (B.senderDisplayName, 1) := by
      rw [alGet_foldl_statStep S hSns _ [], h2]
      rfl
    have hwfstat := stat_wf (filterDuplicateEdits (sortByTs s.messages)) [] hwfnil2
    have hfilcnt : (((filterDuplicateEdits (sortByTs s.messages)).foldl statStep []).map
        (fun e => (⟨e.1, e.2.1, e.2.2⟩ : ParticipantStat))).filter
          (fun st => decide (st.userId = S))
        = [⟨S, B.senderDisplayName, 1⟩] := by
      rw [stats_filter_map S, filter_key_of_alGet S _ hwfstat, hcnt]
      rfl
    have hperm : (calculateParticipantStats s).filter (fun st => decide (st.userId = S))
        |>.Perm ((((filterDuplicateEdits (sortByTs s.messages)).foldl statStep []).map
          (fun e => (⟨e.1, e.2.1, e.2.2⟩ : ParticipantStat))).filter
            (fun st => decide (st.userId = S))) := by
      show ((sortStatsDesc _).filter _).Perm _
      exact List.Perm.filter _ (sortStatsDesc_perm _)
    rw [hfilcnt] at hperm
    exact List.perm_singleton.mp hperm
  · -- part 3: under the default options the transcript has one line per
    -- surviving message
    intro tz
    simp [minutesLines]

/-- Witness for C2: an original and its edit at 10:00:00 from the same
sender collapse to the edited entry, counted once. -/
theorem c2_edit_dedup_witness :
    (filterDuplicateEdits (sortByTs editSession.messages)).filter
        (fun m => decide (dedupKey m = dedupKey msgA)) = [msgB]
    ∧ (calculateParticipantStats editSession).filter
        (fun st => decide (st.userId = "@s:x")) = [⟨"@s:x", "S One", 1⟩] := by
  have h := c2_edit_dedup editSession msgA msgB "@s:x" (by decide) rfl rfl rfl rfl rfl rfl
    (Or.inl (by decide)) (by decide) (by decide) (by decide)
  exact ⟨h.1, h.2.2.1⟩

/-- C3: startMeeting immediately after a successful startMeeting on the
same room fails with the session-conflict result and leaves the state (in
particular the session registry) untouched; endMeeting, cancelMeeting and
setMeetingTopic on a room with no active session fail with their
no-active-session results and untouched state; captureMessage,
captureMessageEdit and recordParticipantEvent on a room with no active
session return `false` as a pure no-op. -/
theorem c3_error_results (st : MgrState) (roomId : String)
    (h : alGet roomId st.activeSessions = none) :
    (∀ roomName chairUserId chairDisplayName now sid
        roomName' chairUserId' chairDisplayName' now' sid' (pOk : Bool),
      (startMeeting roomId roomName chairUserId chairDisplayName now sid true st).1.success
          = true ∧
      startMeeting roomId roomName' chairUserId' chairDisplayName' now' sid' pOk
          (startMeeting roomId roomName chairUserId chairDisplayName now sid true st).2 =
        ({ success := false
           message := "A meeting is already active in this room. Please end the current meeting before starting a new one."
           session := none },
          (startMeeting roomId roomName chairUserId chairDisplayName now sid true st).2))
    ∧ (∀ gopts now pOk, endMeeting gopts roomId now pOk st =
        ({ success := false, message := "No active meeting found in this room."
           session := none, minutes := none }, st))
    ∧ (∀ kvOk, cancelMeeting roomId kvOk st =
        ({ success := false, message := "No active meeting found in this room."
           session := none, minutes := none }, st))
    ∧ (∀ topic pOk, setMeetingTopic roomId topic pOk st =
        ({ success := false
           message := "No active meeting found in this room. Start a meeting first with #startmeeting." }, st))
    ∧ (∀ ev disp pOk, captureMessage roomId ev disp pOk st = (false, st))
    ∧ (∀ ev orig disp pOk, captureMessageEdit roomId ev orig disp pOk st = (false, st))
    ∧ (∀ userId disp isJoin now pOk,
        recordParticipantEvent roomId userId disp isJoin now pOk st = (false, st)) := by
  refine ⟨?_, ?_, ?_, ?_, ?_, ?_, ?_⟩
  · intro roomName chairUserId chairDisplayName now sid roomName' chairUserId'
      chairDisplayName' now' sid' pOk
    constructor
    · simp [startMeeting, h]
    · set st1 := (startMeeting roomId roomName chairUserId chairDisplayName now sid true st).2
        with hst1
      have hreg : (alGet roomId st1.activeSessions).isSome = true := by
        rw [hst1]
        simp [startMeeting, h, persistSession_activeSessions, alGet_alSet_self]
      simp [startMeeting, hreg]
  · intro gopts now pOk
    simp [endMeeting, h]
  · intro kvOk
    simp [cancelMeeting, h]
  · intro topic pOk
    simp [setMeetingTopic, h]
  · intro ev disp pOk
    simp [captureMessage, h]
  · intro ev orig disp pOk
    simp [captureMessageEdit, h]
  · intro userId disp isJoin now pOk
    simp [recordParticipantEvent, h]

/-- Witness for C3 at a concrete state: the empty registry with room
`!room:example.org`. -/
theorem c3_error_results_witness :
    alGet "!room:x" initMgrState.activeSessions = none ∧
    (endMeeting (mkMinutesGeneratorOptions none none) "!room:x" 5 true initMgrState).1.success
      = false := by
  refine ⟨rfl, ?_⟩
  have h := (c3_error_results initMgrState "!room:x" rfl).2.1
      (mkMinutesGeneratorOptions none none) 5 true
  rw [h]

/-- C9: with an active session, captureMessageEdit appends an
edited-flagged entry and returns true for any event, with no gate on the
event's message type; captureMessage instead returns false (leaving the
state untouched) whenever the event's `msgtype` is absent or not one of
m.text, m.emote, m.notice. -/
theorem c9_edit_has_no_type_gate (st : MgrState) (roomId : String) (s : MeetingSession)
    (ev : MatrixEvent) (orig disp : String)
    (h : alGet roomId st.activeSessions = some s) :
    ((captureMessageEdit roomId ev orig disp true st).1 = true
      ∧ alGet roomId (captureMessageEdit roomId ev orig disp true st).2.activeSessions =
          some { s with
            messages := s.messages ++ [mkEditedMessage ev orig disp]
            participants := setAdd s.participants ev.sender }
      ∧ (mkEditedMessage ev orig disp).isEdited = true)
    ∧ ((match ev.content.msgtype with
        | none => True
        | some t => t ∉ (["m.text", "m.emote", "m.notice"] : List String)) →
      ∀ pOk, captureMessage roomId ev disp pOk st = (false, st)) := by
  constructor
  · refine ⟨?_, ?_, rfl⟩
    · simp [captureMessageEdit, h]
    · simp [captureMessageEdit, h, persistSession_activeSessions, alGet_alSet_self]
  · intro hbad pOk
    cases hm : ev.content.msgtype with
    | none => simp [captureMessage, h, hm]
    | some t =>
      rw [hm] at hbad
      simp only [List.mem_cons, List.not_mem_nil] at hbad
      push_neg at hbad
      simp [captureMessage, h, hm, hbad.1, hbad.2.1, hbad.2.2.1]

/-- Witness for C9: an `m.image` event is appended by captureMessageEdit
but rejected by captureMessage. -/
theorem c9_edit_has_no_type_gate_witness :
    (captureMessageEdit "!r:x" imageEvent "$orig:x" "U" true sampleState).1 = true
    ∧ captureMessage "!r:x" imageEvent "U" true sampleState = (false, sampleState) := by
  have h := c9_edit_has_no_type_gate sampleState "!r:x" sampleSession imageEvent
    "$orig:x" "U" (by decide)
  refine ⟨h.1.1, h.2 ?_ true⟩
  show ("m.image" : String) ∉ (["m.text", "m.emote", "m.notice"] : List String)
  decide

/-- C4, counterexample: startMeeting registers the session in the
in-memory registry before persisting and does not roll back when the
persist throws, so after a failed start the caller sees a failure result
yet a status query observes an active in-memory session that neither
durable table holds. -/
theorem c4_divergence_counterexample :
    (startMeeting "!r:x" "Dev Room" "@chair:x" "Chair" 0 "sid1" false initMgrState).1.success
        = false
    ∧ (getMeetingStatus "!r:x" 5
        (startMeeting "!r:x" "Dev Room" "@chair:x" "Chair" 0 "sid1" false initMgrState).2).hasActiveMeeting
        = true
    ∧ alGet "!r:x"
        (startMeeting "!r:x" "Dev Room" "@chair:x" "Chair" 0 "sid1" false initMgrState).2.kvActive
        = none
    ∧ alGet "sid1"
        (startMeeting "!r:x" "Dev Room" "@chair:x" "Chair" 0 "sid1" false initMgrState).2.kvSessions
        = none := by
  refine ⟨?_, ?_, ?_, ?_⟩ <;> decide

/-- C4 as amended: every mutating operation awaits persistence and reports
failure when the persist throws (no operation reports success without its
KV write having completed), and a successful startMeeting leaves the full
serialized snapshot in both durable tables; but on a persistence failure
the in-memory registry is not rolled back, so it can hold state the
durable store does not (the counterexample above). -/
theorem c4_write_through_amended :
    (∀ roomId roomName chairUserId chairDisplayName now sid st,
      (startMeeting roomId roomName chairUserId chairDisplayName now sid false st).1.success
        = false)
    ∧ (∀ gopts roomId now st, (endMeeting gopts roomId now false st).1.success = false)
    ∧ (∀ roomId st, (cancelMeeting roomId false st).1.success = false)
    ∧ (∀ roomId topic st, (setMeetingTopic roomId topic false st).1.success = false)
    ∧ (∀ roomId ev disp st, (captureMessage roomId ev disp false st).1 = false)
    ∧ (∀ roomId ev orig disp st, (captureMessageEdit roomId ev orig disp false st).1 = false)
    ∧ (∀ roomId userId disp isJoin now st,
        (recordParticipantEvent roomId userId disp isJoin now false st).1 = false)
    ∧ (∀ roomId roomName chairUserId chairDisplayName now sid st sess,
        (startMeeting roomId roomName chairUserId chairDisplayName now sid true st).1.session
          = some sess →
        alGet sess.id
            (startMeeting roomId roomName chairUserId chairDisplayName now sid true st).2.kvSessions
          = some (serializeSession sess)
        ∧ alGet roomId
            (startMeeting roomId roomName chairUserId chairDisplayName now sid true st).2.kvActive
          = some (serializeSession sess)) := by
  refine ⟨?_, ?_, ?_, ?_, ?_, ?_, ?_, ?_⟩
  · intro roomId roomName chairUserId chairDisplayName now sid st
    unfold startMeeting
    split <;> simp
  · intro gopts roomId now st
    unfold endMeeting
    split
    · rfl
    · next s heq =>
      simp [generateMinutes]
  · intro roomId st
    unfold cancelMeeting
    split <;> simp
  · intro roomId topic st
    unfold setMeetingTopic
    split <;> simp
  · intro roomId ev disp st
    cases halg : alGet roomId st.activeSessions with
    | none => simp [captureMessage, halg]
    | some s =>
      cases hm : ev.content.msgtype with
      | none => simp [captureMessage, halg, hm]
      | some t => simp [captureMessage, halg, hm, apply_ite Prod.fst, ite_self]
  · intro roomId ev orig disp st
    unfold captureMessageEdit
    split <;> simp
  · intro roomId userId disp isJoin now st
    unfold recordParticipantEvent
    split <;> simp
  · intro roomId roomName chairUserId chairDisplayName now sid st sess hsess
    unfold startMeeting at hsess ⊢
    by_cases hc : (alGet roomId st.activeSessions).isSome = true
    · rw [if_pos hc] at hsess
      simp at hsess
    · rw [if_neg hc] at hsess ⊢
      simp at hsess
      subst hsess
      constructor
      · simp [persistSession, alGet_alSet_self]
      · simp [persistSession, alGet_alSet_self]

/-- Witness for C4 as amended: the successful-start conjunct at a concrete
start from the empty state. -/
theorem c4_write_through_amended_witness :
    (startMeeting "!r2:x" "Ops" "@c:x" "C" 7 "sid7" true initMgrState).1.session
        = some opsSession
    ∧ alGet "sid7" (startMeeting "!r2:x" "Ops" "@c:x" "C" 7 "sid7" true initMgrState).2.kvSessions
        = some (serializeSession opsSession) := by
  have h := (c4_write_through_amended.2.2.2.2.2.2.2 "!r2:x" "Ops" "@c:x" "C" 7 "sid7"
    initMgrState opsSession (by decide)).1
  have hid : opsSession.id = "sid7" := rfl
  exact ⟨by decide, hid ▸ h⟩

/-- C10: the MeetingManager constructor ignores its `minutesGeneration`
option and always builds the default `MinutesGenerator`, whose
`includeSystemMessages` default is true; hence the transcript keeps every
system-authored entry, and endMeeting under any manager options produces
exactly the default-generator minutes. -/
theorem c10_system_messages_always_included (options : MeetingManagerOptions)
    (s : MeetingSession) :
    (mkMeetingManager options).genOptions
        = { includeSystemMessages := true, timeZone := "UTC" }
    ∧ minutesLines (mkMeetingManager options).genOptions s
        = (filterDuplicateEdits (sortByTs s.messages)).map renderLine
    ∧ (∀ (roomId : String) (now : Nat) (st : MgrState) (sess : MeetingSession),
        alGet roomId st.activeSessions = some sess →
        (endMeeting (mkMeetingManager options).genOptions roomId now true st).1.minutes
          = generateMinutes { includeSystemMessages := true, timeZone := "UTC" } now
              { sess with endTime := some now }) := by
  refine ⟨rfl, ?_, ?_⟩
  · simp [minutesLines, mkMeetingManager, mkMinutesGeneratorOptions]
  · intro roomId now st sess h
    simp [endMeeting, h, generateMinutes, mkMeetingManager, mkMinutesGeneratorOptions]

/-- C6, counterexample: for the session in room "Dev Room" started
2024-01-20T10:00Z, both storage variants name the file
`2024-01-20-10-00.md` with no room-slug suffix, unlike the claimed
`<YYYY-MM-DD-HH-MM-slug(room)>.md`; and the directory component uses the
delete-then-hyphenate sanitizer, which differs from the claimed
collapse-runs slug (e.g. on "Q&A"). -/
theorem c6_storage_path_counterexample :
    ghGenerateFilePath sampleSession = "meetings/dev-room/2024-01-20-10-00.md"
    ∧ localSaveMinutesPath "../data/" sampleSession = "../data//dev-room/2024-01-20-10-00.md"
    ∧ "meetings/dev-room/2024-01-20-10-00.md"
        ≠ "meetings/" ++ slugify sampleSession.roomName ++ "/" ++
            "2024-01-20-10-00-" ++ slugify sampleSession.roomName ++ ".md"
    ∧ sanitizeChannelName "Q&A" = "qa"
    ∧ slugify "Q&A" = "q-a"
    ∧ sanitizeChannelName "Q&A" ≠ slugify "Q&A" := by
  refine ⟨?_, ?_, ?_, ?_, ?_, ?_⟩ <;> decide

/-- C6 as amended: both storage variants write at
`<root>/<sanitized(room)>/<YYYY-MM-DD-HH-MM>.md` (GitHub root `meetings`,
local root the configured directory), where `sanitized` lowercases,
deletes characters outside `[a-z0-9\s-]`, turns whitespace runs into one
hyphen, collapses hyphen runs and trims a leading/trailing hyphen, and the
date/time fields come from the session's start time; the room slug is not
repeated in the file name. -/
theorem c6_storage_path_amended (directory : String) (s : MeetingSession) :
    localSaveMinutesPath directory s = sharedPathAmended directory s
    ∧ ghGenerateFilePath s = sharedPathAmended "meetings" s := by
  constructor <;>
    simp [localSaveMinutesPath, localGenerateFilePath, ghGenerateFilePath,
      sharedPathAmended, String.append_assoc]

/-- C7, counterexample: two sessions whose start timestamps differ by 30
seconds (all else equal) receive the same generated document name, so name
generation does not differ whenever an input differs. -/
theorem c7_not_injective_counterexample :
    generateFilename sampleSession
        = generateFilename { sampleSession with startTime := 1705744830000 }
    ∧ sampleSession.startTime
        ≠ ({ sampleSession with startTime := 1705744830000 } : MeetingSession).startTime
    ∧ generateFilename sampleSession = "2024-01-20-10-00-dev-room.md" := by
  refine ⟨?_, ?_, ?_⟩ <;> decide

/-- C7 as amended: document name generation is a deterministic function of
(room name, start timestamp), and names moreover coincide whenever the
room slugs agree and the start instants agree at minute granularity (so
distinct names are guaranteed only up to slug equality and the minute). -/
theorem c7_filename_determinism_amended (s1 s2 : MeetingSession) :
    (s1.roomName = s2.roomName → s1.startTime = s2.startTime →
      generateFilename s1 = generateFilename s2)
    ∧ (filenameKey s1 = filenameKey s2 → generateFilename s1 = generateFilename s2) := by
  have hview : ∀ s : MeetingSession,
      generateFilename s = (filenameKey s).2 ++ "-" ++ (filenameKey s).1 ++ ".md" := by
    intro s
    simp [generateFilename, filenameKey, isoDateString, String.append_assoc]
  constructor
  · intro hr ht
    unfold generateFilename
    rw [hr, ht]
  · intro hk
    rw [hview s1, hview s2, hk]

/-- Witness for C7: two sessions equal except for their ids receive the
same document name. -/
theorem c7_filename_determinism_amended_witness :
    generateFilename sampleSession = generateFilename { sampleSession with id := "zzz" } := by
  exact (c7_filename_determinism_amended sampleSession
    { sampleSession with id := "zzz" }).1 rfl rfl

/-- C8, counterexample: a surviving plain-text message is rendered with
its sender wrapped in angle brackets and no colon after the sender, not in
the claimed `HH:MM:SS <sender>: <content>` colon form (under either
reading of `<sender>` as a placeholder or as a bracketed name). -/
theorem c8_render_counterexample :
    generateMinutesContent { includeSystemMessages := true, timeZone := "UTC" } textSession
        = "10:00:00 <Alice> hello"
    ∧ "10:00:00 <Alice> hello" ≠ "10:00:00 Alice: hello"
    ∧ "10:00:00 <Alice> hello" ≠ "10:00:00 <Alice>: hello" := by
  refine ⟨?_, ?_, ?_⟩ <;> decide

/-- C8 as amended: each surviving message renders as `HH:MM:SS <sender> c`
where the plain-text content is unchanged (sender in literal angle
brackets, no colon), an emote line is `HH:MM:SS *sender content*` with no
bracketed sender, a system notice renders italic as `HH:MM:SS <System>
*content*`, a non-system notice bold, and every edited entry carries the
trailing ` (edited)` marker. -/
theorem c8_render_shapes (m : CapturedMessage) :
    (m.messageType = some "m.text" →
      renderLine m = formatTimeWithSeconds m.timestamp ++ " <" ++ m.senderDisplayName ++
        "> " ++ (m.content ++ (if m.isEdited then " (edited)" else "")))
    ∧ (m.messageType = some "m.emote" →
      renderLine m = formatTimeWithSeconds m.timestamp ++ " " ++
        ("*" ++ m.senderDisplayName ++ " " ++ m.content ++ "*" ++
          (if m.isEdited then " (edited)" else "")))
    ∧ (m.messageType = some "m.notice" → m.senderId = "system" →
      renderLine m = formatTimeWithSeconds m.timestamp ++ " <" ++ m.senderDisplayName ++
        "> " ++ ("*" ++ m.content ++ "*" ++ (if m.isEdited then " (edited)" else "")))
    ∧ (m.messageType = some "m.notice" → m.senderId ≠ "system" →
      renderLine m = formatTimeWithSeconds m.timestamp ++ " <" ++ m.senderDisplayName ++
        "> " ++ ("**" ++ m.content ++ "**" ++ (if m.isEdited then " (edited)" else ""))) := by
  have hte : ("m.text" : String) ≠ "m.emote" := by decide
  have hne : ("m.notice" : String) ≠ "m.emote" := by decide
  refine ⟨?_, ?_, ?_, ?_⟩
  · intro h
    cases hE : m.isEdited <;>
      simp [renderLine, formatMessage, h, hE, hte, String.append_assoc]
  · intro h
    cases hE : m.isEdited <;>
      simp [renderLine, formatMessage, h, hE, String.append_assoc]
  · intro h hsys
    cases hE : m.isEdited <;>
      simp [renderLine, formatMessage, h, hsys, hE, hne, String.append_assoc]
  · intro h hsys
    cases hE : m.isEdited <;>
      simp [renderLine, formatMessage, h, hsys, hE, hne, String.append_assoc]

/-- Witness for C8: the plain-text shape at a concrete message. -/
theorem c8_render_shapes_witness :
    aliceMessage.messageType = some "m.text"
    ∧ renderLine aliceMessage = "10:00:00 <Alice> hello" := by
  refine ⟨rfl, ?_⟩
  rw [(c8_render_shapes aliceMessage).1 rfl]
  decide

/-- Witness for C10: a manager configured to suppress system messages
still hands endMeeting the default generator options. -/
theorem c10_system_messages_always_included_witness :
    (endMeeting
        (mkMeetingManager
          { kvPath := none
            minutesGeneration := some { includeSystemMessages := some false, timeZone := none } }).genOptions
        "!r:x" 1705748400000 true sampleState).1.minutes
      = generateMinutes { includeSystemMessages := true, timeZone := "UTC" } 1705748400000
          { sampleSession with endTime := some 1705748400000 } := by
  exact (c10_system_messages_always_included
    { kvPath := none
      minutesGeneration := some { includeSystemMessages := some false, timeZone := none } }
    sampleSession).2.2 "!r:x" 1705748400000 sampleState sampleSession (by decide)

end HC1

